import Mathlib

/-!
Shallow embedding of the sampling/PSF computation engine of the
`observatory` Blender add-on (file `sampling.py`), together with proofs
about the claims of its specification.

Modelling conventions:
* Python floats are idealized as real numbers `ℝ`.
* `mathutils` 2D vectors (`.xy`) are pairs `ℝ × ℝ`.
* numpy 2D arrays are a `Grid` structure: explicit row/column counts plus a
  total data function; cells outside the stated shape are irrelevant.
* Python `int(x)` on a float truncates toward zero (`pyInt`).
* numpy integer indexing accepts negative indices `-n ≤ i < 0`, which wrap
  to `i + n`; anything outside `[-n, n)` raises `IndexError` (`npIndex`).
* Fallible code returns `Except PyErr`; Python `float / 0.0` raises
  `ZeroDivisionError`, modelled by `PyErr.zeroDivision`.
* The two module-level `queue.Queue(maxsize=1)` objects are single slots
  `Option Job`; the code is only ever run from one thread at a time in the
  scenarios specified, so the slot transition functions are sequential.
* Blender image datablocks are identified by a `ℕ` id; the external
  `get_*_image(create=True)` lookups are abstracted as fields of `Scene`.
-/

namespace Observatory

/-- An antenna is identified by its 2D ground position (the `.xy` of the
object location used by `compute_sampling_image`). -/
abbrev Antenna := ℝ × ℝ

/-- Componentwise difference of 2D vectors: `vsub a b` is `a - b`. -/
def vsub (a b : Antenna) : ℝ × ℝ := (a.1 - b.1, a.2 - b.2)

/-- Scalar multiple of a 2D vector (`B * scale`). -/
def vscale (v : ℝ × ℝ) (c : ℝ) : ℝ × ℝ := (v.1 * c, v.2 * c)

/-- Euclidean length of a 2D vector (`Vector.length`). -/
noncomputable def vlength (v : ℝ × ℝ) : ℝ := Real.sqrt (v.1 ^ 2 + v.2 ^ 2)

/-- All ordered pairs `(l[i], l[j])` with `i < j`, in the iteration order of
`for i, a in enumerate(antennas): for b in antennas[i+1:]`. -/
def pairs {α : Type} : List α → List (α × α)
  | [] => []
  | a :: rest => (rest.map fun b => (a, b)) ++ pairs rest

/-- The baseline vectors `b.xy - a.xy`, one per iterated pair. -/
noncomputable def baselines (antennas : List Antenna) : List (ℝ × ℝ) :=
  (pairs antennas).map fun p => vsub p.2 p.1

/-- The `Bmax` accumulation loop of `compute_sampling_image`:
start from `0.0` and replace the accumulator whenever a longer baseline is
found. -/
noncomputable def computeBmax (antennas : List Antenna) : ℝ :=
  (pairs antennas).foldl
    (fun m p => let B := vlength (vsub p.2 p.1); if B > m then B else m) 0

/-- Module-level constant `margin = 3` of `sampling.py`. -/
def margin : ℝ := 3

/-- Python `int()` applied to a float: truncation toward zero. -/
noncomputable def pyInt (x : ℝ) : ℤ := if 0 ≤ x then ⌊x⌋ else ⌈x⌉

/-- numpy index resolution on an axis of size `n`: indices in `[0, n)` are
used as-is, indices in `[-n, 0)` wrap to `i + n`, anything else is an
`IndexError`. -/
def npIndex (n : ℕ) (i : ℤ) : Option ℕ :=
  if 0 ≤ i then
    if i < (n : ℤ) then some i.toNat else none
  else
    if -(n : ℤ) ≤ i then some (i + n).toNat else none

/-- A 2D numpy array: shape metadata plus a total data function. -/
structure Grid where
  rows : ℕ
  cols : ℕ
  data : ℕ → ℕ → ℝ

/-- `np.zeros((r, c))`. -/
def Grid.zeros (r c : ℕ) : Grid := ⟨r, c, fun _ _ => 0⟩

/-- Point update of a grid at resolved (nonnegative) indices. -/
def Grid.setAt (g : Grid) (i j : ℕ) (v : ℝ) : Grid :=
  ⟨g.rows, g.cols, fun a b => if a = i ∧ b = j then v else g.data a b⟩

/-- `g[i, j] = v` with numpy integer-index semantics; `none` models an
`IndexError`. -/
def Grid.set (g : Grid) (i j : ℤ) (v : ℝ) : Option Grid :=
  match npIndex g.rows i, npIndex g.cols j with
  | some i', some j' => some (g.setAt i' j' v)
  | _, _ => none

/-- One iteration of the rasterization loop of `compute_sampling_image`:
scale the baseline of the pair `p` and mark a single cell, using the
negative-`s.x` branch when `s.x < 0`. -/
noncomputable def rasterizePair (h : ℤ) (scale : ℝ) (g : Grid)
    (p : Antenna × Antenna) : Option Grid :=
  let B := vsub p.2 p.1
  let s := vscale B scale
  if s.1 ≥ 0 then
    g.set (pyInt (0.5 + s.1)) (pyInt ((h : ℝ) / 2 + 0.5 + s.2)) 1
  else
    g.set (pyInt (0.5 + s.1)) (pyInt ((h : ℝ) / 2 + 0.5 - s.2)) 1

/-- The full rasterization loop over the iterated antenna pairs. -/
noncomputable def rasterize (h : ℤ) (scale : ℝ) (g : Grid) :
    List (Antenna × Antenna) → Option Grid
  | [] => some g
  | p :: ps =>
    match rasterizePair h scale g p with
    | some g' => rasterize h scale g' ps
    | none => none

/-- Hermitian completion of a half spectrum of logical length `n` from its
first `n / 2 + 1` entries, as `numpy.fft.irfft` reconstructs it. -/
noncomputable def hermitianSpec (a : ℕ → ℂ) (n k : ℕ) : ℂ :=
  if k ≤ n / 2 then a k else (starRingEnd ℂ) (a (n - k))

/-- Orthonormally normalized inverse DFT along the first (row) axis of a
real grid, cropped to `w` rows, evaluated at output row `u`, column `k`. -/
noncomputable def ifftCol (g : Grid) (w u k : ℕ) : ℂ :=
  (1 / (Real.sqrt w : ℂ)) *
    ∑ i ∈ Finset.range w,
      (g.data i k : ℂ) * Complex.exp (2 * Real.pi * Complex.I * u * i / w)

/-- Model of `numpy.fft.irfft2(g, s=(w, h), norm="ortho")`: inverse FFT
along the first axis (cropped to `w`), then a real-input inverse FFT along
the second axis whose length-`h` spectrum is the Hermitian completion of
the first `h / 2 + 1` columns.  The output shape is `(w, h)`. -/
noncomputable def irfft2 (g : Grid) (w h : ℕ) : Grid :=
  ⟨w, h, fun x y =>
    ((1 / (Real.sqrt h : ℂ)) *
      ∑ k ∈ Finset.range h,
        hermitianSpec (fun k => ifftCol g w x k) h k *
          Complex.exp (2 * Real.pi * Complex.I * k * y / h)).re⟩

/-- `np.clip(x, lo, hi)`. -/
noncomputable def clip (x lo hi : ℝ) : ℝ := min (max x lo) hi

/-- One cell of the `values` array of `ndarray_to_pixels`:
`np.clip(array / (mapping[1] - mapping[0]) - mapping[0], mapping[0],
mapping[1])` applied elementwise. -/
noncomputable def encodedValue (x lo hi : ℝ) : ℝ :=
  clip (x / (hi - lo) - lo) lo hi

/-- `ndarray_to_pixels(array, mapping)`: the clipped `values` array
replicated into RGB with alpha `1.0` (`np.dstack`), flattened in C
order. -/
noncomputable def ndarray_to_pixels (g : Grid) (mapping : ℝ × ℝ) : List ℝ :=
  (List.range g.rows).flatMap fun i =>
    (List.range g.cols).flatMap fun j =>
      [encodedValue (g.data i j) mapping.1 mapping.2,
       encodedValue (g.data i j) mapping.1 mapping.2,
       encodedValue (g.data i j) mapping.1 mapping.2, 1]

/-- The scene state visible to the sampling module: the configured image
size (`scene.interferometry.image_width/height`, Python ints) and the
image datablocks the `get_*_image(create=True)` lookups resolve to. -/
structure Scene where
  image_width : ℤ
  image_height : ℤ
  sampling_image : Option ℕ
  pointspread_image : Option ℕ

/-- The lambda `scene.interferometry.get_sampling_image(create=True)`
passed as `get_image` for the sampling queue; the Blender datablock lookup
is abstracted as a `Scene` field. -/
def getSamplingImage (scene : Scene) : Option ℕ := scene.sampling_image

/-- The lambda `scene.interferometry.get_pointspread_image(create=True)`
passed as `get_image` for the pointspread queue. -/
def getPointspreadImage (scene : Scene) : Option ℕ := scene.pointspread_image

/-- A pixel-update job as built by `enqueue_image_pixel_update`: the
captured `get_image` callable and the pixel payload. -/
structure Job where
  get_image : Scene → Option ℕ
  pixels : List ℝ
  width : ℕ
  height : ℕ
  allow_resize : Bool

/-- Record of a completed `update_image_pixels` call: which image was
written and with what data. -/
structure ImageWrite where
  image : ℕ
  pixels : List ℝ
  width : ℕ
  height : ℕ
  allow_resize : Bool

/-- Running a job (`job(scene)` in the source): look up the image; if it is
`None` do nothing, otherwise write the pixel data into it. -/
def Job.run (j : Job) (scene : Scene) : Option ImageWrite :=
  match j.get_image scene with
  | some img => some ⟨img, j.pixels, j.width, j.height, j.allow_resize⟩
  | none => none

/-- A `queue.Queue(maxsize=1)` used as a single-slot mailbox. -/
abbrev Slot := Option Job

/-- The `while not q.empty(): q.get_nowait()` drain loop at the start of
`enqueue_image_pixel_update`: afterwards the queue is empty. -/
def clearQueue (_q : Slot) : Slot := none

/-- `q.put_nowait(job)` wrapped in `try/except queue.Full: pass`: installs
the job when there is space, otherwise drops it silently. -/
def putNowait (q : Slot) (j : Job) : Slot :=
  match q with
  | none => some j
  | some _ => q

/-- `enqueue_image_pixel_update(q, get_image, pixels, width, height,
allow_resize)`: clear the queue, then install the freshly built job. -/
def enqueue_image_pixel_update (q : Slot) (get_image : Scene → Option ℕ)
    (pixels : List ℝ) (width height : ℕ) (allow_resize : Bool) : Slot :=
  putNowait (clearQueue q) ⟨get_image, pixels, width, height, allow_resize⟩

/-- `execute_image_pixel_update(q, scene)`: if a job is pending, remove it,
run it and report `True`; otherwise report `False`.  The third component
records the image write the job performed, if any. -/
def execute_image_pixel_update (q : Slot) (scene : Scene) :
    Slot × Bool × Option ImageWrite :=
  match q with
  | some j => (none, true, j.run scene)
  | none => (none, false, none)

/-- Python exceptions that `compute_sampling_image` can raise. -/
inductive PyErr
  | zeroDivision
  | indexError
deriving DecidableEq

/-- The two module-level queues of `sampling.py`. -/
structure QueueState where
  sampling_queue : Slot
  pointspread_queue : Slot

/-- The `epsilon` constant of `compute_sampling_image`. -/
def epsilon : ℝ := 1.0e-6

/-- `compute_sampling_image(scene, antennas)`: the full pipeline.  Returns
the boolean result together with the updated queue state, or the Python
exception that was raised.  Note that `scale` divides by `Bmax` with no
guard (`ZeroDivisionError` when `Bmax == 0.0`), and that `invscale` — the
only quantity the epsilon guard protects — is never used afterwards. -/
noncomputable def compute_sampling_image (scene : Scene)
    (antennas : List Antenna) (qs : QueueState) :
    Except PyErr (Bool × QueueState) :=
  if antennas.length < 2 then .ok (false, qs)
  else
    let w := scene.image_width
    let h := scene.image_height
    if w < 1 ∨ h < 1 then .ok (false, qs)
    else
      let Bmax := computeBmax antennas
      if Bmax = 0 then .error .zeroDivision
      else
        let scale := (0.5 * ((min w h : ℤ) : ℝ) - margin) / Bmax
        let invscale := if scale > epsilon then 1 / scale else (1 : ℝ)
        match rasterize h scale (Grid.zeros (w + 1).toNat (h * 2 + 1).toNat)
            (pairs antennas) with
        | none => .error .indexError
        | some sampling =>
          let pointspread := irfft2 sampling w.toNat h.toNat
          .ok (true,
            { sampling_queue :=
                enqueue_image_pixel_update qs.sampling_queue getSamplingImage
                  (ndarray_to_pixels sampling (0, 1))
                  sampling.rows sampling.cols true,
              pointspread_queue :=
                enqueue_image_pixel_update qs.pointspread_queue
                  getPointspreadImage
                  (ndarray_to_pixels pointspread (0, 0.1))
                  pointspread.rows pointspread.cols true })

/-- Variant of `compute_sampling_image` with the `epsilon`/`invscale`
computation removed, for the dead-code refinement claim. -/
noncomputable def compute_sampling_image_noguard (scene : Scene)
    (antennas : List Antenna) (qs : QueueState) :
    Except PyErr (Bool × QueueState) :=
  if antennas.length < 2 then .ok (false, qs)
  else
    let w := scene.image_width
    let h := scene.image_height
    if w < 1 ∨ h < 1 then .ok (false, qs)
    else
      let Bmax := computeBmax antennas
      if Bmax = 0 then .error .zeroDivision
      else
        let scale := (0.5 * ((min w h : ℤ) : ℝ) - margin) / Bmax
        match rasterize h scale (Grid.zeros (w + 1).toNat (h * 2 + 1).toNat)
            (pairs antennas) with
        | none => .error .indexError
        | some sampling =>
          let pointspread := irfft2 sampling w.toNat h.toNat
          .ok (true,
            { sampling_queue :=
                enqueue_image_pixel_update qs.sampling_queue getSamplingImage
                  (ndarray_to_pixels sampling (0, 1))
                  sampling.rows sampling.cols true,
              pointspread_queue :=
                enqueue_image_pixel_update qs.pointspread_queue
                  getPointspreadImage
                  (ndarray_to_pixels pointspread (0, 0.1))
                  pointspread.rows pointspread.cols true })

/-! ## Theorems about the claims -/

/-- C3: for fewer than 2 antennas, or image width or height < 1,
`compute_sampling_image` returns failure (`False`), raises nothing,
enqueues no job on either update queue and leaves the queue state (and
hence any previously displayed output) unchanged. -/
theorem C3_invalid_input_fails (scene : Scene) (antennas : List Antenna)
    (qs : QueueState)
    (hbad : antennas.length < 2 ∨ scene.image_width < 1 ∨
      scene.image_height < 1) :
    compute_sampling_image scene antennas qs = .ok (false, qs) := by
  unfold compute_sampling_image
  rcases hbad with hlen | hw | hh
  · simp [hlen]
  · by_cases hlen : antennas.length < 2 <;> simp [hlen, hw]
  · by_cases hlen : antennas.length < 2 <;> simp [hlen, hh]

/-- Witness for C3: one antenna on a 128×128 scene is rejected with the
queues untouched. -/
theorem C3_invalid_input_fails_witness :
    compute_sampling_image ⟨128, 128, some 0, some 1⟩ [((0 : ℝ), (0 : ℝ))]
      ⟨none, none⟩ = .ok (false, ⟨none, none⟩) :=
  C3_invalid_input_fails _ _ _ (Or.inl (by simp))

/-- C4: an update slot holds at most one job — enqueueing job data A and
then job data B before any drain leaves exactly the B job pending; the
next drain executes exactly B once and reports that an update ran, and a
subsequent drain with nothing pending executes nothing and reports no
update. -/
theorem C4_single_slot_freshest_wins (q0 : Slot) (scene : Scene)
    (gA : Scene → Option ℕ) (pA : List ℝ) (wA hA : ℕ) (rA : Bool)
    (gB : Scene → Option ℕ) (pB : List ℝ) (wB hB : ℕ) (rB : Bool) :
    enqueue_image_pixel_update
        (enqueue_image_pixel_update q0 gA pA wA hA rA) gB pB wB hB rB =
      some ⟨gB, pB, wB, hB, rB⟩ ∧
    execute_image_pixel_update
        (enqueue_image_pixel_update
          (enqueue_image_pixel_update q0 gA pA wA hA rA) gB pB wB hB rB)
        scene =
      (none, true, Job.run ⟨gB, pB, wB, hB, rB⟩ scene) ∧
    execute_image_pixel_update (none : Slot) scene = (none, false, none) := by
  refine ⟨rfl, rfl, rfl⟩

/-- Length of a `flatMap` over `List.range` whose blocks all have the same
length. -/
lemma flatMap_range_length {α : Type} (f : ℕ → List α) (L n : ℕ)
    (hf : ∀ k, (f k).length = L) :
    ((List.range n).flatMap f).length = n * L := by
  rw [List.length_flatMap]
  induction n with
  | zero => simp
  | succ m ih =>
    rw [List.range_succ, List.map_append, List.sum_append]
    simp [ih, hf, Nat.succ_mul]

/-- Indexing into a `flatMap` over `List.range` whose blocks all have the
same length `L`: position `i * L + j` lands in block `i` at offset `j`. -/
lemma flatMap_range_getElem {α : Type} :
    ∀ (i : ℕ) (f : ℕ → List α) (L n j : ℕ), (∀ k, (f k).length = L) →
      i < n → j < L →
      ((List.range n).flatMap f)[i * L + j]? = (f i)[j]? := by
  intro i
  induction i with
  | zero =>
    intro f L n j hf hi hj
    obtain ⟨m, rfl⟩ : ∃ m, n = m + 1 := ⟨n - 1, by omega⟩
    rw [List.range_succ_eq_map, List.flatMap_cons, List.flatMap_map]
    rw [Nat.zero_mul, Nat.zero_add]
    exact List.getElem?_append_left (by rw [hf]; exact hj)
  | succ i ih =>
    intro f L n j hf hi hj
    obtain ⟨m, rfl⟩ : ∃ m, n = m + 1 := ⟨n - 1, by omega⟩
    rw [List.range_succ_eq_map, List.flatMap_cons, List.flatMap_map]
    rw [List.getElem?_append_right (by rw [hf]; nlinarith)]
    have harith : (i + 1) * L + j - (f 0).length = i * L + j := by
      rw [hf]; ring_nf; omega
    rw [harith]
    have := ih (fun k => f (k + 1)) L m j (fun k => hf (k + 1))
      (by omega) hj
    simpa [Nat.succ_eq_add_one] using this

/-- Per-cell characterization of `ndarray_to_pixels`: cell `(i, j)` of the
input grid occupies positions `4 * (i * cols + j) + c`, `c < 4`, of the
flattened buffer. -/
lemma ndarray_to_pixels_getElem (g : Grid) (lo hi : ℝ) (i j c : ℕ)
    (hrow : i < g.rows) (hcol : j < g.cols) (hc : c < 4) :
    (ndarray_to_pixels g (lo, hi))[4 * (i * g.cols + j) + c]? =
      [encodedValue (g.data i j) lo hi, encodedValue (g.data i j) lo hi,
        encodedValue (g.data i j) lo hi, (1 : ℝ)][c]? := by
  unfold ndarray_to_pixels
  have hinner : ∀ k : ℕ,
      ((List.range g.cols).flatMap fun j =>
        [encodedValue (g.data k j) lo hi, encodedValue (g.data k j) lo hi,
         encodedValue (g.data k j) lo hi, (1 : ℝ)]).length =
      g.cols * 4 :=
    fun k => flatMap_range_length _ 4 g.cols (fun _ => rfl)
  rw [show 4 * (i * g.cols + j) + c = i * (g.cols * 4) + (4 * j + c) by ring]
  rw [flatMap_range_getElem i _ (g.cols * 4) g.rows (4 * j + c) hinner hrow
    (by omega)]
  rw [show 4 * j + c = j * 4 + c by ring]
  rw [flatMap_range_getElem j
    (fun j' => [encodedValue (g.data i j') lo hi,
      encodedValue (g.data i j') lo hi,
      encodedValue (g.data i j') lo hi, (1 : ℝ)])
    4 g.cols c (fun _ => rfl) hcol hc]

/-- C5 (amended): for every 2D real array and mapping pair `(low, high)`,
the encoder produces a buffer of length `rows * cols * 4` in which source
cell `x` at `(i, j)` becomes the 4 floats `(v, v, v, 1.0)` at positions
`4 * (i * cols + j) + {0,1,2,3}`, with
`v = clip(x / (high - low) - low, low, high)` — the cell value is divided
by the range and then shifted by `low`, not shifted first. -/
theorem C5_encoder_cell_values (g : Grid) (lo hi : ℝ) (i j : ℕ)
    (hrow : i < g.rows) (hcol : j < g.cols) :
    (ndarray_to_pixels g (lo, hi)).length = g.rows * (g.cols * 4) ∧
    (ndarray_to_pixels g (lo, hi))[4 * (i * g.cols + j)]? =
      some (clip (g.data i j / (hi - lo) - lo) lo hi) ∧
    (ndarray_to_pixels g (lo, hi))[4 * (i * g.cols + j) + 1]? =
      some (clip (g.data i j / (hi - lo) - lo) lo hi) ∧
    (ndarray_to_pixels g (lo, hi))[4 * (i * g.cols + j) + 2]? =
      some (clip (g.data i j / (hi - lo) - lo) lo hi) ∧
    (ndarray_to_pixels g (lo, hi))[4 * (i * g.cols + j) + 3]? =
      some (1 : ℝ) := by
  refine ⟨?_, ?_, ?_, ?_, ?_⟩
  · unfold ndarray_to_pixels
    exact flatMap_range_length _ (g.cols * 4) g.rows
      (fun k => flatMap_range_length _ 4 g.cols (fun _ => rfl))
  · simpa [encodedValue] using
      ndarray_to_pixels_getElem g lo hi i j 0 hrow hcol (by omega)
  · simpa [encodedValue] using
      ndarray_to_pixels_getElem g lo hi i j 1 hrow hcol (by omega)
  · simpa [encodedValue] using
      ndarray_to_pixels_getElem g lo hi i j 2 hrow hcol (by omega)
  · simpa [encodedValue] using
      ndarray_to_pixels_getElem g lo hi i j 3 hrow hcol (by omega)

/-- Witness for C5: a 1×1 grid holding `4` under mapping `(1, 3)` encodes
to `clip(4 / 2 - 1, 1, 3) = 1` in the first three channels. -/
theorem C5_encoder_cell_values_witness :
    (ndarray_to_pixels ⟨1, 1, fun _ _ => 4⟩ ((1 : ℝ), (3 : ℝ))).length =
      1 * (1 * 4) ∧
    (ndarray_to_pixels ⟨1, 1, fun _ _ => 4⟩ ((1 : ℝ), (3 : ℝ)))[4 * (0 * 1 + 0)]? =
      some (clip ((4 : ℝ) / (3 - 1) - 1) 1 3) ∧
    (ndarray_to_pixels ⟨1, 1, fun _ _ => 4⟩ ((1 : ℝ), (3 : ℝ)))[4 * (0 * 1 + 0) + 1]? =
      some (clip ((4 : ℝ) / (3 - 1) - 1) 1 3) ∧
    (ndarray_to_pixels ⟨1, 1, fun _ _ => 4⟩ ((1 : ℝ), (3 : ℝ)))[4 * (0 * 1 + 0) + 2]? =
      some (clip ((4 : ℝ) / (3 - 1) - 1) 1 3) ∧
    (ndarray_to_pixels ⟨1, 1, fun _ _ => 4⟩ ((1 : ℝ), (3 : ℝ)))[4 * (0 * 1 + 0) + 3]? =
      some (1 : ℝ) :=
  C5_encoder_cell_values ⟨1, 1, fun _ _ => 4⟩ 1 3 0 0 (by norm_num) (by norm_num)

/-- C5 counterexample: on the 1×1 array `[[4]]` with mapping `(1, 3)` the
encoder stores `1`, while the claimed formula
`clip((x - low) / (high - low), low, high)` gives `3 / 2`. -/
theorem C5_counterexample :
    ndarray_to_pixels ⟨1, 1, fun _ _ => 4⟩ ((1 : ℝ), (3 : ℝ)) =
      [1, 1, 1, 1] ∧
    clip (((4 : ℝ) - 1) / (3 - 1)) 1 3 = 3 / 2 ∧ (1 : ℝ) ≠ 3 / 2 := by
  refine ⟨?_, ?_, by norm_num⟩
  · unfold ndarray_to_pixels
    norm_num [show List.range 1 = [0] from rfl, encodedValue, clip]
  · unfold clip
    norm_num

/-- Twice the number of iterated pairs is `n * (n - 1)`. -/
lemma pairs_length_two {α : Type} (l : List α) :
    2 * (pairs l).length = l.length * (l.length - 1) := by
  induction l with
  | nil => simp [pairs]
  | cons a t ih =>
    simp only [pairs, List.length_append, List.length_map, List.length_cons]
    cases ht : t.length with
    | zero =>
      rw [ht] at ih
      omega
    | succ m =>
      rw [ht] at ih
      rw [show 2 * (m + 1 + (pairs t).length) =
        2 * (m + 1) + 2 * (pairs t).length by ring, ih]
      simp only [Nat.add_sub_cancel]
      ring

/-- Membership in `pairs l` is exactly the index pairs `i < j` of `l`. -/
lemma mem_pairs_iff {α : Type} (l : List α) (p : α × α) :
    p ∈ pairs l ↔
      ∃ i j : ℕ, i < j ∧ l[i]? = some p.1 ∧ l[j]? = some p.2 := by
  induction l generalizing p with
  | nil => simp [pairs]
  | cons a t ih =>
    simp only [pairs, List.mem_append, List.mem_map]
    constructor
    · rintro (⟨b, hb, hpeq⟩ | hp)
      · obtain ⟨k, hk⟩ := List.mem_iff_getElem?.mp hb
        refine ⟨0, k + 1, by omega, ?_, ?_⟩
        · rw [List.getElem?_cons_zero, ← hpeq]
        · rw [List.getElem?_cons_succ, hk, ← hpeq]
      · obtain ⟨i, j, hij, h1, h2⟩ := (ih p).mp hp
        exact ⟨i + 1, j + 1, by omega, by simpa using h1, by simpa using h2⟩
    · rintro ⟨i, j, hij, h1, h2⟩
      obtain ⟨j', rfl⟩ : ∃ j', j = j' + 1 := ⟨j - 1, by omega⟩
      rw [List.getElem?_cons_succ] at h2
      cases i with
      | zero =>
        rw [List.getElem?_cons_zero] at h1
        have ha : a = p.1 := by simpa using h1
        exact Or.inl ⟨p.2, List.mem_iff_getElem?.mpr ⟨j', h2⟩,
          by rw [ha]⟩
      | succ i' =>
        rw [List.getElem?_cons_succ] at h1
        exact Or.inr ((ih p).mpr ⟨i', j', by omega, h1, h2⟩)

/-- Any two members of a list are equal or appear (in one order) among the
iterated pairs. -/
lemma pair_cases_of_mem {α : Type} (l : List α) (a b : α) :
    a ∈ l → b ∈ l → a = b ∨ (a, b) ∈ pairs l ∨ (b, a) ∈ pairs l := by
  induction l with
  | nil => intro ha _; simp at ha
  | cons c t ih =>
    intro ha hb
    rcases List.mem_cons.mp ha with rfl | hat
    · rcases List.mem_cons.mp hb with rfl | hbt
      · exact Or.inl rfl
      · exact Or.inr (Or.inl (List.mem_append_left _
          (List.mem_map_of_mem _ hbt)))
    · rcases List.mem_cons.mp hb with rfl | hbt
      · exact Or.inr (Or.inr (List.mem_append_left _
          (List.mem_map_of_mem _ hat)))
      · rcases ih hat hbt with h | h | h
        · exact Or.inl h
        · exact Or.inr (Or.inl (List.mem_append_right _ h))
        · exact Or.inr (Or.inr (List.mem_append_right _ h))

/-- The `Bmax` update step is a binary `max`. -/
lemma bmaxStep_eq_max (m : ℝ) (p : Antenna × Antenna) :
    (let B := vlength (vsub p.2 p.1); if B > m then B else m) =
      max m (vlength (vsub p.2 p.1)) := by
  show (if vlength (vsub p.2 p.1) > m then vlength (vsub p.2 p.1) else m) = _
  by_cases hc : vlength (vsub p.2 p.1) > m
  · rw [if_pos hc, max_eq_right hc.le]
  · rw [if_neg hc, max_eq_left (not_lt.mp hc)]

/-- `computeBmax` as a fold of `max`. -/
lemma computeBmax_eq_foldl_max (l : List Antenna) :
    computeBmax l =
      (pairs l).foldl (fun m p => max m (vlength (vsub p.2 p.1))) 0 := by
  unfold computeBmax
  congr 1
  funext m p
  exact bmaxStep_eq_max m p

/-- The initial value is a lower bound of a `max` fold. -/
lemma foldl_max_init_le {α : Type} (f : α → ℝ) :
    ∀ (L : List α) (init : ℝ),
      init ≤ L.foldl (fun m x => max m (f x)) init := by
  intro L
  induction L with
  | nil => intro init; simp
  | cons p t ih =>
    intro init
    simp only [List.foldl_cons]
    exact le_trans (le_max_left _ _) (ih (max init (f p)))

/-- Every listed value is a lower bound of a `max` fold. -/
lemma foldl_max_le {α : Type} (f : α → ℝ) :
    ∀ (L : List α) (init : ℝ) (x : α), x ∈ L →
      f x ≤ L.foldl (fun m x => max m (f x)) init := by
  intro L
  induction L with
  | nil => intro init x hx; simp at hx
  | cons p t ih =>
    intro init x hx
    simp only [List.foldl_cons]
    rcases List.mem_cons.mp hx with rfl | hxt
    · exact le_trans (le_max_right _ _) (foldl_max_init_le f t _)
    · exact ih _ x hxt

/-- A `max` fold returns its initial value or one of the listed values. -/
lemma foldl_max_attained {α : Type} (f : α → ℝ) :
    ∀ (L : List α) (init : ℝ),
      L.foldl (fun m x => max m (f x)) init = init ∨
      ∃ x ∈ L, L.foldl (fun m x => max m (f x)) init = f x := by
  intro L
  induction L with
  | nil => intro init; exact Or.inl rfl
  | cons p t ih =>
    intro init
    simp only [List.foldl_cons]
    rcases ih (max init (f p)) with h | ⟨x, hx, hfx⟩
    · rcases max_choice init (f p) with hm | hm
      · exact Or.inl (by rw [h, hm])
      · exact Or.inr ⟨p, List.mem_cons_self _ _, by rw [h, hm]⟩
    · exact Or.inr ⟨x, List.mem_cons_of_mem _ hx, hfx⟩

/-- Vector lengths are nonnegative. -/
lemma vlength_nonneg (v : ℝ × ℝ) : 0 ≤ vlength v := Real.sqrt_nonneg _

/-- The length of a difference vector is symmetric in its endpoints. -/
lemma vlength_vsub_comm (a b : Antenna) :
    vlength (vsub a b) = vlength (vsub b a) := by
  unfold vlength vsub
  rw [show (a.1 - b.1) ^ 2 = (b.1 - a.1) ^ 2 by ring,
    show (a.2 - b.2) ^ 2 = (b.2 - a.2) ^ 2 by ring]

/-- C6 (amended): for `N ≥ 2` antennas the extractor computes exactly one
baseline per iterated index pair `i < j`, namely `position[j] -
position[i]`, so the number of baseline vectors computed — counted with
multiplicity, one per unordered pair — is `N * (N - 1) / 2` (coincident
pairs can make the number of *distinct* vectors smaller), and `Bmax`
equals the maximum pairwise Euclidean distance among the antennas. -/
theorem C6_baseline_count_and_bmax (l : List Antenna) (h2 : 2 ≤ l.length) :
    (baselines l).length = l.length * (l.length - 1) / 2 ∧
    (∀ p : Antenna × Antenna, p ∈ pairs l ↔
      ∃ i j : ℕ, i < j ∧ l[i]? = some p.1 ∧ l[j]? = some p.2) ∧
    (∀ a ∈ l, ∀ b ∈ l, vlength (vsub b a) ≤ computeBmax l) ∧
    ∃ p ∈ pairs l, computeBmax l = vlength (vsub p.2 p.1) := by
  have hlen : (pairs l).length = l.length * (l.length - 1) / 2 := by
    have := pairs_length_two l
    omega
  refine ⟨by simpa [baselines] using hlen, fun p => mem_pairs_iff l p,
    ?_, ?_⟩
  · intro a ha b hb
    rw [computeBmax_eq_foldl_max]
    rcases pair_cases_of_mem l a b ha hb with rfl | hab | hba
    · calc vlength (vsub a a) = 0 := by
            unfold vlength vsub; simp
        _ ≤ _ := foldl_max_init_le _ _ _
    · have hle := foldl_max_le (fun p => vlength (vsub p.2 p.1))
        (pairs l) 0 (a, b) hab
      simpa using hle
    · rw [← vlength_vsub_comm a b]
      have hle := foldl_max_le (fun p => vlength (vsub p.2 p.1))
        (pairs l) 0 (b, a) hba
      simpa using hle
  · rw [computeBmax_eq_foldl_max]
    rcases foldl_max_attained (fun p => vlength (vsub p.2 p.1))
        (pairs l) 0 with h0 | ⟨p, hp, hfp⟩
    · have hne : pairs l ≠ [] := by
        intro hnil
        have htwo := pairs_length_two l
        rw [hnil] at htwo
        simp only [List.length_nil, Nat.mul_zero] at htwo
        have hpos : 0 < l.length * (l.length - 1) :=
          Nat.mul_pos (by omega) (by omega)
        omega
      obtain ⟨p, ps, hps⟩ := List.exists_cons_of_ne_nil hne
      have hmem : p ∈ pairs l := by rw [hps]; exact List.mem_cons_self _ _
      refine ⟨p, hmem, ?_⟩
      have hle := foldl_max_le (fun p => vlength (vsub p.2 p.1))
        (pairs l) 0 p hmem
      have hge := vlength_nonneg (vsub p.2 p.1)
      rw [h0] at hle
      rw [h0]
      linarith
    · exact ⟨p, hp, hfp⟩

/-- Witness for C6: two antennas at `(0,0)` and `(3,4)`. -/
theorem C6_baseline_count_and_bmax_witness :
    (baselines [((0 : ℝ), (0 : ℝ)), ((3 : ℝ), (4 : ℝ))]).length =
      [((0 : ℝ), (0 : ℝ)), ((3 : ℝ), (4 : ℝ))].length *
        ([((0 : ℝ), (0 : ℝ)), ((3 : ℝ), (4 : ℝ))].length - 1) / 2 ∧
    (∀ p : Antenna × Antenna,
      p ∈ pairs [((0 : ℝ), (0 : ℝ)), ((3 : ℝ), (4 : ℝ))] ↔
      ∃ i j : ℕ, i < j ∧
        [((0 : ℝ), (0 : ℝ)), ((3 : ℝ), (4 : ℝ))][i]? = some p.1 ∧
        [((0 : ℝ), (0 : ℝ)), ((3 : ℝ), (4 : ℝ))][j]? = some p.2) ∧
    (∀ a ∈ [((0 : ℝ), (0 : ℝ)), ((3 : ℝ), (4 : ℝ))],
      ∀ b ∈ [((0 : ℝ), (0 : ℝ)), ((3 : ℝ), (4 : ℝ))],
      vlength (vsub b a) ≤
        computeBmax [((0 : ℝ), (0 : ℝ)), ((3 : ℝ), (4 : ℝ))]) ∧
    ∃ p ∈ pairs [((0 : ℝ), (0 : ℝ)), ((3 : ℝ), (4 : ℝ))],
      computeBmax [((0 : ℝ), (0 : ℝ)), ((3 : ℝ), (4 : ℝ))] =
        vlength (vsub p.2 p.1) :=
  C6_baseline_count_and_bmax _ (by norm_num)

/-- C6 counterexample: for the three collinear antennas `(0,0)`, `(1,0)`,
`(2,0)` the extractor computes `3 = N(N-1)/2` baseline vectors, but only
`2` *distinct* ones, because two unordered pairs share the displacement
`(1,0)`. -/
theorem C6_counterexample :
    (baselines [((0 : ℝ), (0 : ℝ)), (1, 0), (2, 0)]).length = 3 ∧
    (baselines [((0 : ℝ), (0 : ℝ)), (1, 0), (2, 0)]).toFinset.card = 2 := by
  have hb : baselines [((0 : ℝ), (0 : ℝ)), (1, 0), (2, 0)] =
      [(1, 0), (2, 0), (1, 0)] := by
    simp only [baselines, pairs, List.map_cons, List.map_nil,
      List.map_append, List.nil_append, List.cons_append, vsub]
    norm_num
  rw [hb]
  refine ⟨rfl, ?_⟩
  have h12 : ((1 : ℝ), (0 : ℝ)) ≠ ((2 : ℝ), (0 : ℝ)) := by norm_num
  simp [List.toFinset_cons, Finset.card_insert_of_not_mem, h12]

/-- Both components of an iterated pair are members of the list. -/
lemma mem_of_mem_pairs {α : Type} {l : List α} {p : α × α}
    (hp : p ∈ pairs l) : p.1 ∈ l ∧ p.2 ∈ l := by
  obtain ⟨i, j, _, h1, h2⟩ := (mem_pairs_iff l p).mp hp
  exact ⟨List.mem_iff_getElem?.mpr ⟨i, h1⟩,
    List.mem_iff_getElem?.mpr ⟨j, h2⟩⟩

/-- When all antennas coincide, every baseline has length `0` and the
`Bmax` loop returns exactly `0.0`. -/
lemma computeBmax_coincident (l : List Antenna)
    (hall : ∀ a ∈ l, ∀ b ∈ l, a = b) : computeBmax l = 0 := by
  rw [computeBmax_eq_foldl_max]
  rcases foldl_max_attained (fun p => vlength (vsub p.2 p.1))
      (pairs l) 0 with h0 | ⟨p, hp, hfp⟩
  · exact h0
  · rw [hfp]
    have h12 := mem_of_mem_pairs hp
    have heq : p.1 = p.2 := hall _ h12.1 _ h12.2
    rw [← heq]
    unfold vlength vsub
    simp

/-- C1 (amended): for every antenna list of length ≥ 2 in which all
antenna positions coincide and every valid image size, `Bmax` is exactly
`0.0` and `compute_sampling_image` *fails*: the line
`scale = (0.5 * min(w, h) - margin) / Bmax` raises `ZeroDivisionError`
before anything is enqueued.  The `epsilon` guard does not prevent this:
it only selects a default of `1.0` for the unused variable `invscale`,
not for `scale`. -/
theorem C1_coincident_antennas_raise (scene : Scene)
    (antennas : List Antenna) (qs : QueueState)
    (h2 : 2 ≤ antennas.length)
    (hall : ∀ a ∈ antennas, ∀ b ∈ antennas, a = b)
    (hw : 1 ≤ scene.image_width) (hh : 1 ≤ scene.image_height) :
    compute_sampling_image scene antennas qs = .error .zeroDivision := by
  have hb := computeBmax_coincident antennas hall
  simp [compute_sampling_image, hb,
    show ¬(antennas.length < 2) by omega,
    show ¬(scene.image_width < 1) by omega,
    show ¬(scene.image_height < 1) by omega]

/-- Witness for C1: two antennas both at `(5, 7)` on a 64×64 scene. -/
theorem C1_coincident_antennas_raise_witness :
    compute_sampling_image ⟨64, 64, none, none⟩
      [((5 : ℝ), (7 : ℝ)), ((5 : ℝ), (7 : ℝ))] ⟨none, none⟩ =
      .error .zeroDivision :=
  C1_coincident_antennas_raise _ _ _ (by norm_num)
    (by
      intro a ha b hb
      simp only [List.mem_cons, List.not_mem_nil, or_false] at ha hb
      rcases ha with ha | ha <;> rcases hb with hb | hb <;> rw [ha, hb])
    (by norm_num) (by norm_num)

/-- C1 counterexample: two coincident antennas at `(3, 4)` on a 128×128
scene make `compute_sampling_image` raise `ZeroDivisionError` instead of
proceeding with `scale = 1.0` and returning success. -/
theorem C1_counterexample :
    compute_sampling_image ⟨128, 128, some 0, some 1⟩
      [((3 : ℝ), (4 : ℝ)), ((3 : ℝ), (4 : ℝ))] ⟨none, none⟩ =
      .error .zeroDivision := by
  have hb : computeBmax [((3 : ℝ), (4 : ℝ)), ((3 : ℝ), (4 : ℝ))] = 0 :=
    computeBmax_coincident _
      (by
        intro a ha b hbm
        simp only [List.mem_cons, List.not_mem_nil, or_false] at ha hbm
        rcases ha with ha | ha <;> rcases hbm with hbm | hbm <;>
          rw [ha, hbm])
  simp [compute_sampling_image, hb]

/-- Preservation of the shape metadata by a single numpy assignment. -/
lemma Grid.set_dims {g g' : Grid} {i j : ℤ} {v : ℝ}
    (h : g.set i j v = some g') : g'.rows = g.rows ∧ g'.cols = g.cols := by
  unfold Grid.set at h
  cases hmi : npIndex g.rows i <;> cases hmj : npIndex g.cols j <;>
    rw [hmi, hmj] at h <;> simp at h
  rw [← h]
  exact ⟨rfl, rfl⟩

/-- Preservation of the shape metadata by one rasterization step. -/
lemma rasterizePair_dims {h : ℤ} {scale : ℝ} {g g' : Grid}
    {p : Antenna × Antenna} (hp : rasterizePair h scale g p = some g') :
    g'.rows = g.rows ∧ g'.cols = g.cols := by
  unfold rasterizePair at hp
  by_cases hc : (vscale (vsub p.2 p.1) scale).1 ≥ 0
  · rw [if_pos hc] at hp
    exact Grid.set_dims hp
  · rw [if_neg hc] at hp
    exact Grid.set_dims hp

/-- Preservation of the shape metadata by the rasterization loop. -/
lemma rasterize_dims {h : ℤ} {scale : ℝ} :
    ∀ {ps : List (Antenna × Antenna)} {g g' : Grid},
      rasterize h scale g ps = some g' →
      g'.rows = g.rows ∧ g'.cols = g.cols := by
  intro ps
  induction ps with
  | nil =>
    intro g g' hras
    unfold rasterize at hras
    simp at hras
    rw [← hras]
    exact ⟨rfl, rfl⟩
  | cons p t ih =>
    intro g g' hras
    unfold rasterize at hras
    cases hstep : rasterizePair h scale g p with
    | none => rw [hstep] at hras; simp at hras
    | some g1 =>
      rw [hstep] at hras
      obtain ⟨h1, h2⟩ := ih hras
      obtain ⟨h3, h4⟩ := rasterizePair_dims hstep
      exact ⟨h1.trans h3, h2.trans h4⟩

/-- A grid whose cells all hold `0.0` or `1.0`. -/
def Grid.binary (g : Grid) : Prop :=
  ∀ i j : ℕ, g.data i j = 0 ∨ g.data i j = 1

/-- A numpy assignment of `1.0` keeps a binary grid binary. -/
lemma Grid.set_binary {g g' : Grid} {i j : ℤ}
    (hb : g.binary) (h : g.set i j 1 = some g') : g'.binary := by
  unfold Grid.set at h
  cases hmi : npIndex g.rows i with
  | none => rw [hmi] at h; simp at h
  | some i' =>
    cases hmj : npIndex g.cols j with
    | none => rw [hmi, hmj] at h; simp at h
    | some j' =>
      rw [hmi, hmj] at h
      simp at h
      rw [← h]
      intro a b
      unfold Grid.setAt
      dsimp only
      by_cases hab : a = i' ∧ b = j'
      · rw [if_pos hab]
        exact Or.inr rfl
      · rw [if_neg hab]
        exact hb a b

/-- One rasterization step keeps a binary grid binary. -/
lemma rasterizePair_binary {h : ℤ} {scale : ℝ} {g g' : Grid}
    {p : Antenna × Antenna} (hb : g.binary)
    (hp : rasterizePair h scale g p = some g') : g'.binary := by
  unfold rasterizePair at hp
  by_cases hc : (vscale (vsub p.2 p.1) scale).1 ≥ 0
  · rw [if_pos hc] at hp
    exact Grid.set_binary hb hp
  · rw [if_neg hc] at hp
    exact Grid.set_binary hb hp

/-- The rasterization loop keeps a binary grid binary. -/
lemma rasterize_binary {h : ℤ} {scale : ℝ} :
    ∀ {ps : List (Antenna × Antenna)} {g g' : Grid}, g.binary →
      rasterize h scale g ps = some g' → g'.binary := by
  intro ps
  induction ps with
  | nil =>
    intro g g' hb hras
    unfold rasterize at hras
    simp at hras
    rw [← hras]
    exact hb
  | cons p t ih =>
    intro g g' hb hras
    unfold rasterize at hras
    cases hstep : rasterizePair h scale g p with
    | none => rw [hstep] at hras; simp at hras
    | some g1 =>
      rw [hstep] at hras
      exact ih (rasterizePair_binary hb hstep) hras

/-- The all-zero grid is binary. -/
lemma Grid.zeros_binary (r c : ℕ) : (Grid.zeros r c).binary :=
  fun _ _ => Or.inl rfl

/-- C8: for image size `W × H` (both ≥ 1), the sampling grid allocated by
`compute_sampling_image` has shape `(W + 1, H * 2 + 1)` and, after any
prefix of the rasterization loop that has not raised, it still has that
shape and every cell holds `0.0` or `1.0`; the point-spread array produced
from it by the orthonormal real-input inverse FFT has shape `(W, H)`. -/
theorem C8_grid_shape_and_binary (w h : ℤ) (hw : 1 ≤ w) (hh : 1 ≤ h)
    (scale : ℝ) (ps : List (Antenna × Antenna)) (t : ℕ) (g' : Grid)
    (hras : rasterize h scale
      (Grid.zeros (w + 1).toNat (h * 2 + 1).toNat) (ps.take t) = some g') :
    g'.rows = w.toNat + 1 ∧ g'.cols = h.toNat * 2 + 1 ∧
    (∀ i j : ℕ, g'.data i j = 0 ∨ g'.data i j = 1) ∧
    (irfft2 g' w.toNat h.toNat).rows = w.toNat ∧
    (irfft2 g' w.toNat h.toNat).cols = h.toNat := by
  obtain ⟨hr, hc⟩ := rasterize_dims hras
  refine ⟨?_, ?_, rasterize_binary (Grid.zeros_binary _ _) hras, rfl, rfl⟩
  · rw [hr]
    show (w + 1).toNat = w.toNat + 1
    omega
  · rw [hc]
    show (h * 2 + 1).toNat = h.toNat * 2 + 1
    omega

/-- Witness for C8: the empty prefix on a 1×1 image. -/
theorem C8_grid_shape_and_binary_witness :
    (Grid.zeros ((1 : ℤ) + 1).toNat ((1 : ℤ) * 2 + 1).toNat).rows =
      (1 : ℤ).toNat + 1 ∧
    (Grid.zeros ((1 : ℤ) + 1).toNat ((1 : ℤ) * 2 + 1).toNat).cols =
      (1 : ℤ).toNat * 2 + 1 ∧
    (∀ i j : ℕ,
      (Grid.zeros ((1 : ℤ) + 1).toNat ((1 : ℤ) * 2 + 1).toNat).data i j = 0 ∨
      (Grid.zeros ((1 : ℤ) + 1).toNat ((1 : ℤ) * 2 + 1).toNat).data i j = 1) ∧
    (irfft2 (Grid.zeros ((1 : ℤ) + 1).toNat ((1 : ℤ) * 2 + 1).toNat)
      (1 : ℤ).toNat (1 : ℤ).toNat).rows = (1 : ℤ).toNat ∧
    (irfft2 (Grid.zeros ((1 : ℤ) + 1).toNat ((1 : ℤ) * 2 + 1).toNat)
      (1 : ℤ).toNat (1 : ℤ).toNat).cols = (1 : ℤ).toNat :=
  C8_grid_shape_and_binary 1 1 le_rfl le_rfl 1 [] 0 _ rfl

/-- Python truncation of anything below `1` is nonpositive. -/
lemma pyInt_nonpos {x : ℝ} (hx : x < 1) : pyInt x ≤ 0 := by
  unfold pyInt
  by_cases h0 : 0 ≤ x
  · rw [if_pos h0]
    have : ⌊x⌋ < 1 := Int.floor_lt.mpr (by exact_mod_cast hx)
    omega
  · rw [if_neg h0]
    exact Int.ceil_le.mpr (by push_cast; linarith [not_le.mp h0])

/-- A negative in-range index wraps to `i + n` under numpy indexing. -/
lemma npIndex_neg {n : ℕ} {i : ℤ} (h1 : i < 0) (h2 : -(n : ℤ) ≤ i) :
    npIndex n i = some (i + n).toNat := by
  unfold npIndex
  rw [if_neg (by omega), if_pos h2]

/-- C2 (amended): for every baseline whose scaled vector `s` has
`s.x < 0`, the rasterizer writes exactly one cell, whose computed x-index
is the Python truncation `int(0.5 + s.x)` — a *nonpositive* number, not
`round(-s.x)` — and whose y-index is `int(H/2 + 0.5 - s.y)`; when the
x-index is negative and within range, numpy's negative-index wrapping
resolves it to the storage slot `(W + 1) + int(0.5 + s.x)`. -/
theorem C2_negative_fold_storage (h : ℤ) (scale : ℝ) (g : Grid)
    (p : Antenna × Antenna)
    (hneg : (vscale (vsub p.2 p.1) scale).1 < 0) :
    pyInt (0.5 + (vscale (vsub p.2 p.1) scale).1) ≤ 0 ∧
    rasterizePair h scale g p =
      g.set (pyInt (0.5 + (vscale (vsub p.2 p.1) scale).1))
        (pyInt ((h : ℝ) / 2 + 0.5 - (vscale (vsub p.2 p.1) scale).2)) 1 ∧
    (pyInt (0.5 + (vscale (vsub p.2 p.1) scale).1) < 0 →
      -(g.rows : ℤ) ≤ pyInt (0.5 + (vscale (vsub p.2 p.1) scale).1) →
      npIndex g.rows (pyInt (0.5 + (vscale (vsub p.2 p.1) scale).1)) =
        some ((pyInt (0.5 + (vscale (vsub p.2 p.1) scale).1) +
          g.rows).toNat)) := by
  refine ⟨pyInt_nonpos (by linarith), ?_, fun hlt hge => npIndex_neg hlt hge⟩
  simp only [rasterizePair]
  rw [if_neg (not_le.mpr hneg)]

/-- Witness for C2: the baseline `(-10, 0)` at scale `61/10` on a 128×128
configuration. -/
theorem C2_negative_fold_storage_witness :
    pyInt (0.5 + (vscale (vsub ((-10 : ℝ), (0 : ℝ)) ((0 : ℝ), (0 : ℝ)))
      (61 / 10)).1) ≤ 0 ∧
    rasterizePair 128 (61 / 10) (Grid.zeros 129 257)
        (((0 : ℝ), (0 : ℝ)), ((-10 : ℝ), (0 : ℝ))) =
      (Grid.zeros 129 257).set
        (pyInt (0.5 + (vscale (vsub ((-10 : ℝ), (0 : ℝ)) ((0 : ℝ), (0 : ℝ)))
          (61 / 10)).1))
        (pyInt (((128 : ℤ) : ℝ) / 2 + 0.5 -
          (vscale (vsub ((-10 : ℝ), (0 : ℝ)) ((0 : ℝ), (0 : ℝ)))
            (61 / 10)).2)) 1 ∧
    (pyInt (0.5 + (vscale (vsub ((-10 : ℝ), (0 : ℝ)) ((0 : ℝ), (0 : ℝ)))
        (61 / 10)).1) < 0 →
      -((Grid.zeros 129 257).rows : ℤ) ≤
        pyInt (0.5 + (vscale (vsub ((-10 : ℝ), (0 : ℝ)) ((0 : ℝ), (0 : ℝ)))
          (61 / 10)).1) →
      npIndex (Grid.zeros 129 257).rows
          (pyInt (0.5 + (vscale (vsub ((-10 : ℝ), (0 : ℝ))
            ((0 : ℝ), (0 : ℝ))) (61 / 10)).1)) =
        some ((pyInt (0.5 + (vscale (vsub ((-10 : ℝ), (0 : ℝ))
          ((0 : ℝ), (0 : ℝ))) (61 / 10)).1) +
            (Grid.zeros 129 257).rows).toNat)) :=
  C2_negative_fold_storage 128 (61 / 10) (Grid.zeros 129 257)
    (((0 : ℝ), (0 : ℝ)), ((-10 : ℝ), (0 : ℝ)))
    (by unfold vscale vsub; norm_num)

/-- C2 counterexample: for antennas `(0,0)` and `(-10,0)` at scale
`61/10` on a 128×128 configuration, `s = (-61, 0)`; the rasterizer stores
the sample in column `69 = 129 - 60` (the numpy wrap of the negative
computed index `int(0.5 - 61) = -60`), while the column `61 = round(-s.x)`
claimed by the specification stays `0`. -/
theorem C2_counterexample :
    (rasterizePair 128 (61 / 10) (Grid.zeros 129 257)
        (((0 : ℝ), (0 : ℝ)), ((-10 : ℝ), (0 : ℝ)))).map
      (fun g => (g.data 69 64, g.data 61 64)) = some ((1 : ℝ), (0 : ℝ)) := by
  have hs : vscale (vsub ((-10 : ℝ), (0 : ℝ)) ((0 : ℝ), (0 : ℝ)))
      (61 / 10) = (-61, 0) := by
    unfold vscale vsub
    norm_num
  have h1 : pyInt (0.5 + (-61 : ℝ)) = -60 := by
    unfold pyInt
    rw [if_neg (by norm_num)]
    rw [show (0.5 + (-61 : ℝ)) = -(121 / 2) by norm_num]
    rw [Int.ceil_eq_iff] <;> norm_num
  have h2 : pyInt (((128 : ℤ) : ℝ) / 2 + 0.5 - (0 : ℝ)) = 64 := by
    unfold pyInt
    rw [if_pos (by norm_num)]
    rw [show (((128 : ℤ) : ℝ) / 2 + 0.5 - (0 : ℝ)) = 129 / 2 by norm_num]
    rw [Int.floor_eq_iff] <;> norm_num
  simp only [rasterizePair, hs]
  rw [if_neg (by norm_num)]
  rw [h1, h2]
  unfold Grid.set
  rw [show npIndex (Grid.zeros 129 257).rows (-60) = some 69 by
    rw [npIndex_neg (by norm_num) (by norm_num [Grid.zeros])]
    rfl]
  rw [show npIndex (Grid.zeros 129 257).cols (64 : ℤ) = some 64 by
    unfold npIndex
    rw [if_pos (by norm_num), if_pos (by norm_num [Grid.zeros])]
    rfl]
  simp only [Option.map_some]
  unfold Grid.setAt Grid.zeros
  norm_num

/-- Python truncation stays within symmetric real bounds. -/
lemma pyInt_bounds {x : ℝ} {n : ℕ} (hl : -(n : ℝ) ≤ x) (hu : x < n) :
    -(n : ℤ) ≤ pyInt x ∧ pyInt x < n := by
  unfold pyInt
  by_cases h0 : 0 ≤ x
  · rw [if_pos h0]
    refine ⟨?_, Int.floor_lt.mpr (by exact_mod_cast hu)⟩
    have := Int.floor_nonneg.mpr h0
    omega
  · rw [if_neg h0]
    have hn : 0 < n := by
      rcases Nat.eq_zero_or_pos n with h | h
      · exfalso
        apply h0
        calc (0 : ℝ) = -(n : ℝ) := by rw [h]; norm_num
          _ ≤ x := hl
      · exact h
    refine ⟨?_, ?_⟩
    · have hcx := Int.le_ceil x
      have : -(n : ℝ) ≤ (⌈x⌉ : ℝ) := le_trans hl hcx
      exact_mod_cast this
    · have hc0 : ⌈x⌉ ≤ 0 :=
        Int.ceil_le.mpr (by exact_mod_cast (not_le.mp h0).le)
      omega

/-- A numpy assignment with both indices in the accepted range `[-n, n)`
succeeds and keeps the shape. -/
lemma Grid.set_some (g : Grid) (i j : ℤ) (v : ℝ)
    (hi1 : -(g.rows : ℤ) ≤ i) (hi2 : i < g.rows)
    (hj1 : -(g.cols : ℤ) ≤ j) (hj2 : j < g.cols) :
    ∃ g', g.set i j v = some g' ∧ g'.rows = g.rows ∧ g'.cols = g.cols := by
  obtain ⟨i', hii⟩ : ∃ i', npIndex g.rows i = some i' := by
    unfold npIndex
    by_cases h0 : 0 ≤ i
    · rw [if_pos h0, if_pos hi2]
      exact ⟨_, rfl⟩
    · rw [if_neg h0, if_pos hi1]
      exact ⟨_, rfl⟩
  obtain ⟨j', hjj⟩ : ∃ j', npIndex g.cols j = some j' := by
    unfold npIndex
    by_cases h0 : 0 ≤ j
    · rw [if_pos h0, if_pos hj2]
      exact ⟨_, rfl⟩
    · rw [if_neg h0, if_pos hj1]
      exact ⟨_, rfl⟩
  refine ⟨g.setAt i' j' v, ?_, rfl, rfl⟩
  unfold Grid.set
  rw [hii, hjj]

/-- A rasterization step whose scaled baseline satisfies the coarse range
bounds succeeds and keeps the shape. -/
lemma rasterizePair_some_of_bounds (hh : ℤ) (scale : ℝ) (g : Grid)
    (p : Antenna × Antenna)
    (hx1 : -(g.rows : ℝ) ≤ 0.5 + (vscale (vsub p.2 p.1) scale).1)
    (hx2 : 0.5 + (vscale (vsub p.2 p.1) scale).1 < g.rows)
    (hyp1 : -(g.cols : ℝ) ≤ (hh : ℝ) / 2 + 0.5 +
      (vscale (vsub p.2 p.1) scale).2)
    (hyp2 : (hh : ℝ) / 2 + 0.5 + (vscale (vsub p.2 p.1) scale).2 < g.cols)
    (hym1 : -(g.cols : ℝ) ≤ (hh : ℝ) / 2 + 0.5 -
      (vscale (vsub p.2 p.1) scale).2)
    (hym2 : (hh : ℝ) / 2 + 0.5 - (vscale (vsub p.2 p.1) scale).2 < g.cols) :
    ∃ g', rasterizePair hh scale g p = some g' ∧
      g'.rows = g.rows ∧ g'.cols = g.cols := by
  obtain ⟨hxl, hxu⟩ := pyInt_bounds hx1 hx2
  simp only [rasterizePair]
  by_cases hc : (vscale (vsub p.2 p.1) scale).1 ≥ 0
  · rw [if_pos hc]
    obtain ⟨hyl, hyu⟩ := pyInt_bounds hyp1 hyp2
    exact Grid.set_some g _ _ 1 hxl hxu hyl hyu
  · rw [if_neg hc]
    obtain ⟨hyl, hyu⟩ := pyInt_bounds hym1 hym2
    exact Grid.set_some g _ _ 1 hxl hxu hyl hyu

/-- Unfolding one successful step of the rasterization loop. -/
lemma rasterize_cons {h : ℤ} {scale : ℝ} {g g1 : Grid}
    {p : Antenna × Antenna} {ps : List (Antenna × Antenna)}
    (hp : rasterizePair h scale g p = some g1) :
    rasterize h scale g (p :: ps) = rasterize h scale g1 ps := by
  conv_lhs => unfold rasterize
  rw [hp]

/-- The square root of 100. -/
lemma real_sqrt_100 : Real.sqrt 100 = 10 := by
  rw [show (100 : ℝ) = 10 ^ 2 by norm_num, Real.sqrt_sq (by norm_num)]

/-- `Bmax` of the concrete three-antenna scenario exceeds 10. -/
lemma real_sqrt_200_gt : (10 : ℝ) < Real.sqrt 200 := by
  rw [show (10 : ℝ) = Real.sqrt 100 from real_sqrt_100.symm]
  exact Real.sqrt_lt_sqrt (by norm_num) (by norm_num)

/-- A coarse upper bound on the concrete `Bmax`. -/
lemma real_sqrt_200_le : Real.sqrt 200 ≤ 15 := by
  rw [show (15 : ℝ) = Real.sqrt 225 by
    rw [show (225 : ℝ) = 15 ^ 2 by norm_num, Real.sqrt_sq (by norm_num)]]
  exact Real.sqrt_le_sqrt (by norm_num)

/-- The iterated pairs of the three-antenna scenario. -/
lemma pairs_c7 :
    pairs [((0 : ℝ), (0 : ℝ)), ((10 : ℝ), (0 : ℝ)), ((0 : ℝ), (10 : ℝ))] =
      [(((0 : ℝ), (0 : ℝ)), ((10 : ℝ), (0 : ℝ))),
       (((0 : ℝ), (0 : ℝ)), ((0 : ℝ), (10 : ℝ))),
       (((10 : ℝ), (0 : ℝ)), ((0 : ℝ), (10 : ℝ)))] := rfl

/-- `Bmax` of the three antennas `(0,0)`, `(10,0)`, `(0,10)` is `√200`. -/
lemma computeBmax_c7 :
    computeBmax [((0 : ℝ), (0 : ℝ)), ((10 : ℝ), (0 : ℝ)),
      ((0 : ℝ), (10 : ℝ))] = Real.sqrt 200 := by
  have hv1 : vlength (vsub ((10 : ℝ), (0 : ℝ)) ((0 : ℝ), (0 : ℝ))) = 10 := by
    unfold vlength vsub
    norm_num
    exact real_sqrt_100
  have hv2 : vlength (vsub ((0 : ℝ), (10 : ℝ)) ((0 : ℝ), (0 : ℝ))) = 10 := by
    unfold vlength vsub
    norm_num
    exact real_sqrt_100
  have hv3 : vlength (vsub ((0 : ℝ), (10 : ℝ)) ((10 : ℝ), (0 : ℝ))) =
      Real.sqrt 200 := by
    unfold vlength vsub
    norm_num
  unfold computeBmax
  rw [pairs_c7]
  simp only [List.foldl_cons, List.foldl_nil]
  rw [hv1, hv2, hv3]
  rw [if_pos (by norm_num : (10 : ℝ) > 0)]
  rw [if_neg (by norm_num : ¬((10 : ℝ) > 10))]
  rw [if_pos real_sqrt_200_gt]

/-- The rasterization loop of the three-antenna scenario succeeds and
keeps the `(129, 257)` shape. -/
lemma rasterize_c7 :
    ∃ g', rasterize 128 (61 / Real.sqrt 200) (Grid.zeros 129 257)
        (pairs [((0 : ℝ), (0 : ℝ)), ((10 : ℝ), (0 : ℝ)),
          ((0 : ℝ), (10 : ℝ))]) = some g' ∧
      g'.rows = 129 ∧ g'.cols = 257 := by
  have hspos : (0 : ℝ) < Real.sqrt 200 := by positivity
  have ht0 : 0 ≤ 10 * (61 / Real.sqrt 200) := by positivity
  have h61 : 10 * (61 / Real.sqrt 200) ≤ 61 := by
    rw [show (10 : ℝ) * (61 / Real.sqrt 200) = 610 / Real.sqrt 200 by ring,
      div_le_iff hspos]
    nlinarith [real_sqrt_200_gt]
  obtain ⟨g1, hg1, hr1, hc1⟩ := rasterizePair_some_of_bounds 128
    (61 / Real.sqrt 200) (Grid.zeros 129 257)
    (((0 : ℝ), (0 : ℝ)), ((10 : ℝ), (0 : ℝ)))
    (by simp only [Grid.zeros, vscale, vsub]; push_cast; linarith)
    (by simp only [Grid.zeros, vscale, vsub]; push_cast; linarith)
    (by simp only [Grid.zeros, vscale, vsub]; push_cast; linarith)
    (by simp only [Grid.zeros, vscale, vsub]; push_cast; linarith)
    (by simp only [Grid.zeros, vscale, vsub]; push_cast; linarith)
    (by simp only [Grid.zeros, vscale, vsub]; push_cast; linarith)
  have hr1' : g1.rows = 129 := hr1
  have hc1' : g1.cols = 257 := hc1
  obtain ⟨g2, hg2, hr2, hc2⟩ := rasterizePair_some_of_bounds 128
    (61 / Real.sqrt 200) g1
    (((0 : ℝ), (0 : ℝ)), ((0 : ℝ), (10 : ℝ)))
    (by simp only [vscale, vsub, hr1']; push_cast; linarith)
    (by simp only [vscale, vsub, hr1']; push_cast; linarith)
    (by simp only [vscale, vsub, hc1']; push_cast; linarith)
    (by simp only [vscale, vsub, hc1']; push_cast; linarith)
    (by simp only [vscale, vsub, hc1']; push_cast; linarith)
    (by simp only [vscale, vsub, hc1']; push_cast; linarith)
  have hr2' : g2.rows = 129 := hr2.trans hr1'
  have hc2' : g2.cols = 257 := hc2.trans hc1'
  obtain ⟨g3, hg3, hr3, hc3⟩ := rasterizePair_some_of_bounds 128
    (61 / Real.sqrt 200) g2
    (((10 : ℝ), (0 : ℝ)), ((0 : ℝ), (10 : ℝ)))
    (by simp only [vscale, vsub, hr2']; push_cast; linarith)
    (by simp only [vscale, vsub, hr2']; push_cast; linarith)
    (by simp only [vscale, vsub, hc2']; push_cast; linarith)
    (by simp only [vscale, vsub, hc2']; push_cast; linarith)
    (by simp only [vscale, vsub, hc2']; push_cast; linarith)
    (by simp only [vscale, vsub, hc2']; push_cast; linarith)
  refine ⟨g3, ?_, hr3.trans hr2', hc3.trans hc2'⟩
  rw [pairs_c7, rasterize_cons hg1, rasterize_cons hg2, rasterize_cons hg3]
  rfl

/-- Full evaluation of `compute_sampling_image` on the three-antenna
scenario: success, with the sampling grid enqueued at its own shape
`(129, 257)` and the point-spread array at `(128, 128)`. -/
lemma compute_c7 :
    ∃ gS : Grid, gS.rows = 129 ∧ gS.cols = 257 ∧
      compute_sampling_image ⟨128, 128, some 0, some 1⟩
        [((0 : ℝ), (0 : ℝ)), ((10 : ℝ), (0 : ℝ)), ((0 : ℝ), (10 : ℝ))]
        ⟨none, none⟩ =
      .ok (true,
        ⟨some ⟨getSamplingImage, ndarray_to_pixels gS (0, 1),
            gS.rows, gS.cols, true⟩,
         some ⟨getPointspreadImage,
            ndarray_to_pixels
              (irfft2 gS (128 : ℤ).toNat (128 : ℤ).toNat) (0, 0.1),
            (irfft2 gS (128 : ℤ).toNat (128 : ℤ).toNat).rows,
            (irfft2 gS (128 : ℤ).toNat (128 : ℤ).toNat).cols, true⟩⟩) := by
  obtain ⟨gS, hras, hrows, hcols⟩ := rasterize_c7
  have hBne : computeBmax [((0 : ℝ), (0 : ℝ)), ((10 : ℝ), (0 : ℝ)),
      ((0 : ℝ), (10 : ℝ))] ≠ 0 := by
    rw [computeBmax_c7]
    positivity
  refine ⟨gS, hrows, hcols, ?_⟩
  simp only [compute_sampling_image]
  rw [if_neg (by norm_num : ¬(List.length [((0 : ℝ), (0 : ℝ)),
    ((10 : ℝ), (0 : ℝ)), ((0 : ℝ), (10 : ℝ))] < 2))]
  rw [if_neg (by norm_num : ¬((128 : ℤ) < 1 ∨ (128 : ℤ) < 1))]
  rw [if_neg hBne]
  rw [min_self (128 : ℤ)]
  rw [show (0.5 * (((128 : ℤ) : ℝ)) - margin) = 61 by
    norm_num [margin]]
  rw [computeBmax_c7]
  rw [show ((128 : ℤ) + 1).toNat = 129 from rfl]
  rw [show ((128 : ℤ) * 2 + 1).toNat = 257 from rfl]
  rw [hras]
  rfl

/-- C7 (amended): for 3 antennas at `(0,0)`, `(10,0)`, `(0,10)` with a
128×128 image, `Bmax = √200`, `scale = (64 - 3)/Bmax`, exactly 3
baselines are rasterized and `compute_sampling_image` returns success;
the *point-spread* image is enqueued marked for resize to `128 × 128`,
while the *sampling* image is enqueued marked for resize to its grid
shape `129 × 257` (`(W+1) × (H*2+1)`), not to `128 × 128`. -/
theorem C7_concrete_scenario :
    computeBmax [((0 : ℝ), (0 : ℝ)), ((10 : ℝ), (0 : ℝ)),
      ((0 : ℝ), (10 : ℝ))] = Real.sqrt 200 ∧
    (0.5 * ((min (128 : ℤ) (128 : ℤ) : ℤ) : ℝ) - margin) /
      computeBmax [((0 : ℝ), (0 : ℝ)), ((10 : ℝ), (0 : ℝ)),
        ((0 : ℝ), (10 : ℝ))] = (64 - 3) / Real.sqrt 200 ∧
    (pairs [((0 : ℝ), (0 : ℝ)), ((10 : ℝ), (0 : ℝ)),
      ((0 : ℝ), (10 : ℝ))]).length = 3 ∧
    ∃ qs' : QueueState,
      compute_sampling_image ⟨128, 128, some 0, some 1⟩
        [((0 : ℝ), (0 : ℝ)), ((10 : ℝ), (0 : ℝ)), ((0 : ℝ), (10 : ℝ))]
        ⟨none, none⟩ = .ok (true, qs') ∧
      ∃ jS jP : Job, qs'.sampling_queue = some jS ∧
        qs'.pointspread_queue = some jP ∧
        jS.width = 129 ∧ jS.height = 257 ∧ jS.allow_resize = true ∧
        jP.width = 128 ∧ jP.height = 128 ∧ jP.allow_resize = true := by
  obtain ⟨gS, hrows, hcols, hcomp⟩ := compute_c7
  refine ⟨computeBmax_c7, ?_, rfl, ?_⟩
  · rw [min_self (128 : ℤ), computeBmax_c7]
    norm_num [margin]
  · refine ⟨_, hcomp, _, _, rfl, rfl, hrows, hcols, rfl, rfl, rfl, rfl⟩

/-- C7 counterexample: in the concrete three-antenna scenario the job
enqueued for the *sampling* image carries resize dimensions `129 × 257`,
not the `128 × 128` stated by the claim. -/
theorem C7_counterexample :
    ∃ qs' : QueueState,
      compute_sampling_image ⟨128, 128, some 0, some 1⟩
        [((0 : ℝ), (0 : ℝ)), ((10 : ℝ), (0 : ℝ)), ((0 : ℝ), (10 : ℝ))]
        ⟨none, none⟩ = .ok (true, qs') ∧
      ∃ jS : Job, qs'.sampling_queue = some jS ∧
        jS.width = 129 ∧ jS.height = 257 ∧
        ¬(jS.width = 128 ∧ jS.height = 128) := by
  obtain ⟨gS, hrows, hcols, hcomp⟩ := compute_c7
  refine ⟨_, hcomp, _, rfl, hrows, hcols, ?_⟩
  rw [hrows]
  intro hcontra
  exact absurd hcontra.1 (by norm_num)

/-- C9: the `epsilon`/`invscale` computation in `compute_sampling_image`
is dead code — on every input the function returns exactly the same
result (same boolean, same raised exception, same enqueued jobs) as the
variant with that computation removed. -/
theorem C9_invscale_dead_code (scene : Scene) (antennas : List Antenna)
    (qs : QueueState) :
    compute_sampling_image scene antennas qs =
      compute_sampling_image_noguard scene antennas qs := rfl

/-- C10: draining a queue with a pending job returns `True` even when the
job's `get_image` callable returns `None` for the given scene; in that
case no pixel data is written to any image — the `True` return only
means a job was dequeued and run. -/
theorem C10_drain_true_without_write (j : Job) (scene : Scene)
    (hnone : j.get_image scene = none) :
    execute_image_pixel_update (some j) scene = (none, true, none) ∧
      j.run scene = none := by
  have hrun : j.run scene = none := by
    unfold Job.run
    rw [hnone]
  exact ⟨by simp [execute_image_pixel_update, hrun], hrun⟩

/-- Witness for C10: a concrete job whose image lookup fails is drained
with result `True` and no write. -/
theorem C10_drain_true_without_write_witness :
    execute_image_pixel_update
        (some ⟨fun _ => none, [], 1, 1, true⟩) ⟨128, 128, none, none⟩ =
      (none, true, none) ∧
      Job.run ⟨fun _ => none, [], 1, 1, true⟩ ⟨128, 128, none, none⟩ = none :=
  C10_drain_true_without_write _ _ rfl

end Observatory
